import Mathlib

/-!
Shallow embedding of the moq-prototype repository: path addressing
(rpcmoq_lite/client/config.rs, rpcmoq_lite/server/config.rs), the RPC request
path parser (modelled from the spec, the file rpcmoq_lite/path.rs being absent
from the source tree), the drone session registry (drone/mod.rs), the entity
registry (unit_map/mod.rs, unit_map/unit_ref/mod.rs), the three state machines
(state_machine/command.rs, state_machine/telemetry.rs, state_machine/echo.rs),
and the client response-discovery loop (rpcmoq_lite/client/rpc_client.rs).

Rust strings are Lean String, byte buffers (Vec of u8) are List Nat, f64
telemetry fields (never computed with, only stored and cloned) are Rat, and
the Uuid drawn by DroneSessionId::generate is a caller-supplied Nat.
-/

/-- Errors of the RPC-over-MoQ library (rpcmoq_lite/error.rs), restricted to the
constructors the embedded operations can produce. -/
inductive RpcError
  | PathParse (msg : String)
  | BroadcastCreate (msg : String)
  | Timeout
  | ServerNotFound (path : String)
  | ConnectionClosed
  | NoHandler (path : String)
  | Unauthorized (msg : String)
deriving DecidableEq

/-- Configuration for the RPC client (rpcmoq_lite/client/config.rs). The two
optional broadcast prefixes keep the source field semantics: when absent the
path has no leading prefix segment. The Duration timeout is carried as seconds. -/
structure RpcClientConfig where
  client_id : String
  client_pre : Option String
  server_pre : Option String
  track_name : String
  timeout : Nat
deriving DecidableEq

/-- Build the client broadcast path for a given gRPC path
(RpcClientConfig::client_path). -/
def RpcClientConfig.client_path (c : RpcClientConfig) (grpc_path : String) : String :=
  match c.client_pre with
  | some p => p ++ "/" ++ c.client_id ++ "/" ++ grpc_path
  | none => c.client_id ++ "/" ++ grpc_path

/-- Build the expected server response path for a given gRPC path
(RpcClientConfig::server_path). -/
def RpcClientConfig.server_path (c : RpcClientConfig) (grpc_path : String) : String :=
  match c.server_pre with
  | some p => p ++ "/" ++ c.client_id ++ "/" ++ grpc_path
  | none => c.client_id ++ "/" ++ grpc_path

/-- Configuration for the RPC router (rpcmoq_lite/server/config.rs). -/
structure RpcRouterConfig where
  client_pre : Option String
  response_pre : Option String
  track_name : String
deriving DecidableEq

/-- Build the response path for a client and rpc combination
(RpcRouterConfig::response_path). -/
def RpcRouterConfig.response_path (c : RpcRouterConfig) (client_id grpc_path : String) : String :=
  match c.response_pre with
  | some p => p ++ "/" ++ client_id ++ "/" ++ grpc_path
  | none => client_id ++ "/" ++ grpc_path

/-- Consume the first list as a literal leading run of the second, returning the
remainder, or none when the second list does not start with the first. -/
def stripPre : List Char → List Char → Option (List Char)
  | [], rest => some rest
  | _ :: _, [] => none
  | p :: ps, c :: cs => if p = c then stripPre ps cs else none

/-- Split a character list at its first path separator, returning the segment
before it and everything after it, or none when no separator occurs. -/
def breakSlash : List Char → Option (List Char × List Char)
  | [] => none
  | c :: cs =>
    if c = '/' then some ([], cs)
    else
      match breakSlash cs with
      | none => none
      | some (a, b) => some (c :: a, b)

/-- Modelled from the spec: the parser of rpcmoq_lite/path.rs
(RpcRequestPath::parse) is not present in the source tree; only its call site in
rpcmoq_lite/server/router.rs is. Following section 4.1 of the specification,
parsing strips the expected leading prefix segment, fails with a PathParse error
when the prefix does not match or fewer than two separator-delimited components
follow it, takes the next segment as the client id, and rejoins the whole
remainder, which may itself contain separators, as the call name. -/
def parse_request_path (pfx path : String) : Except RpcError (String × String) :=
  match stripPre (pfx.data ++ ['/']) path.data with
  | none => .error (.PathParse path)
  | some rest =>
    match breakSlash rest with
    | none => .error (.PathParse path)
    | some (cid, cn) => .ok (⟨cid⟩, ⟨cn⟩)

/-- Error for a duplicate drone session (drone/error.rs). -/
structure SessionAlreadyActive where
  unit_id : String
deriving DecidableEq

/-- Error for a missing drone session (drone/error.rs). -/
structure SessionNotFound where
  unit_id : String
deriving DecidableEq

/-- An admitted drone session (drone/mod.rs). -/
structure DroneSession where
  session_id : Nat
  unit_id : String
deriving DecidableEq

/-- The drone session registry (drone/mod.rs): the DashMap keyed by UnitId is
modelled as an association list with at most one entry per key. -/
structure DroneSessionMap where
  sessions : List (String × DroneSession)
deriving DecidableEq

/-- Construct an empty session registry (DroneSessionMap::new). -/
def DroneSessionMap.new : DroneSessionMap := ⟨[]⟩

/-- Test whether a unit currently holds a session
(DroneSessionMap::has_active_session). -/
def DroneSessionMap.has_active_session (m : DroneSessionMap) (unit_id : String) : Bool :=
  m.sessions.any (fun e => e.1 == unit_id)

/-- Atomically admit a session for the unit, or reject a duplicate
(DroneSessionMap::create_session). The freshly generated UUID is modelled as
the caller-supplied value fresh. -/
def DroneSessionMap.create_session (m : DroneSessionMap) (unit_id : String) (fresh : Nat) :
    Except SessionAlreadyActive (Nat × DroneSessionMap) :=
  if m.has_active_session unit_id then .error ⟨unit_id⟩
  else .ok (fresh, ⟨(unit_id, ⟨fresh, unit_id⟩) :: m.sessions⟩)

/-- Release the unit's session, returning it (DroneSessionMap::remove_session). -/
def DroneSessionMap.remove_session (m : DroneSessionMap) (unit_id : String) :
    Except SessionNotFound (DroneSession × DroneSessionMap) :=
  match m.sessions.find? (fun e => e.1 == unit_id) with
  | some e => .ok (e.2, ⟨m.sessions.filter (fun e => e.1 != unit_id)⟩)
  | none => .error ⟨unit_id⟩

/-- Count of active sessions (DroneSessionMap::active_session_count). -/
def DroneSessionMap.active_session_count (m : DroneSessionMap) : Nat :=
  m.sessions.length

/-- Registry keys are pairwise distinct, so at most one active session exists
per key; the DashMap enforces this structurally, the association-list model
carries it as an invariant. -/
def DroneSessionMap.atMostOnePerKey (m : DroneSessionMap) : Prop :=
  (m.sessions.map Prod.fst).Nodup

instance (m : DroneSessionMap) : Decidable m.atMostOnePerKey := by
  unfold DroneSessionMap.atMostOnePerKey
  infer_instance

/-- Error for inserting an already-present unit (unit_map/error.rs). -/
structure UnitAlreadyPresent where
  unit_id : String
deriving DecidableEq

/-- Error for a missing unit (unit_map/error.rs). -/
structure UnitNotFound where
  unit_id : String
deriving DecidableEq

/-- Error for viewing a destroyed unit context (unit_map/unit_ref/error.rs). -/
structure UnitViewInvalid where
  unit_id : String
deriving DecidableEq

/-- The entity registry (unit_map/mod.rs). The DashMap from UnitId to an Arc of
the context is modelled as an association list from unit id to a pair of an Arc
identity (a generation number, allocated from next_gen) and the stored context.
Removing an entry drops the registry's only strong Arc, so a Weak link taken
earlier dangles; a later insertion under the same id allocates a distinct Arc,
which the generation number makes observable. -/
structure UnitMap (T : Type) where
  entity_map : List (String × Nat × T)
  next_gen : Nat

/-- Construct a new empty registry (UnitMap::new). -/
def UnitMap.new (T : Type) : UnitMap T := ⟨[], 0⟩

/-- A weak reference to a shared unit context (unit_map/unit_ref/mod.rs): it
records the unit id and the Arc identity it was downgraded from. -/
structure UnitRef where
  unit_id : String
  gen : Nat
deriving DecidableEq

/-- Create a unit entry for the id, rejecting a duplicate
(UnitMap::insert_unit). -/
def UnitMap.insert_unit {T : Type} (m : UnitMap T) (unit_id : String) (unit_context : T) :
    Except UnitAlreadyPresent (UnitMap T) :=
  if m.entity_map.any (fun e => e.1 == unit_id) then .error ⟨unit_id⟩
  else .ok ⟨(unit_id, m.next_gen, unit_context) :: m.entity_map, m.next_gen + 1⟩

/-- Remove the unit entry for the id, dropping its strong Arc
(UnitMap::remove_unit). -/
def UnitMap.remove_unit {T : Type} (m : UnitMap T) (unit_id : String) :
    Except UnitNotFound (UnitMap T) :=
  if m.entity_map.any (fun e => e.1 == unit_id) then
    .ok ⟨m.entity_map.filter (fun e => e.1 != unit_id), m.next_gen⟩
  else .error ⟨unit_id⟩

/-- Lend a weak reference to the unit context for the id (UnitMap::get_unit). -/
def UnitMap.get_unit {T : Type} (m : UnitMap T) (unit_id : String) :
    Except UnitNotFound UnitRef :=
  match m.entity_map.find? (fun e => e.1 == unit_id) with
  | some e => .ok ⟨unit_id, e.2.1⟩
  | none => .error ⟨unit_id⟩

/-- Scoped access to the referenced unit context (UnitRef::view). Upgrading the
weak link succeeds exactly when the Arc it was downgraded from is still the one
held by the registry: same id and same generation. The view function runs only
on a successful upgrade. -/
def UnitRef.view {T R : Type} (m : UnitMap T) (r : UnitRef) (view_fn : T → R) :
    Except UnitViewInvalid R :=
  match m.entity_map.find? (fun e => e.1 == r.unit_id) with
  | some e => if e.2.1 = r.gen then .ok (view_fn e.2.2) else .error ⟨r.unit_id⟩
  | none => .error ⟨r.unit_id⟩

/-- Well-formedness of the registry model: keys are pairwise distinct (the
DashMap guarantees this) and every allocated generation is below next_gen. -/
def UnitMap.WF {T : Type} (m : UnitMap T) : Prop :=
  (m.entity_map.map Prod.fst).Nodup ∧ ∀ e ∈ m.entity_map, e.2.1 < m.next_gen

instance {T : Type} (m : UnitMap T) : Decidable m.WF := by
  unfold UnitMap.WF
  infer_instance

/-- A byte-buffer command queue (state_machine/command.rs): the VecDeque is a
Lean list with push_back at the tail and pop_front at the head. -/
structure CommandQueueMachine where
  pending_commands : List (List Nat)
deriving DecidableEq

/-- Construct an empty command queue (CommandQueueMachine::new). -/
def CommandQueueMachine.new : CommandQueueMachine := ⟨[]⟩

/-- Number of queued commands (CommandQueueMachine::pending_count). -/
def CommandQueueMachine.pending_count (m : CommandQueueMachine) : Nat :=
  m.pending_commands.length

/-- Whether the queue is empty (CommandQueueMachine::is_empty). -/
def CommandQueueMachine.is_empty (m : CommandQueueMachine) : Bool :=
  m.pending_commands.isEmpty

/-- Push a command at the back (CommandQueueMachine::enqueue). -/
def CommandQueueMachine.enqueue (m : CommandQueueMachine) (cmd : List Nat) :
    CommandQueueMachine :=
  ⟨m.pending_commands ++ [cmd]⟩

/-- Pop the front command, if any (CommandQueueMachine::dequeue). Rust mutates
in place; the embedding returns the popped value with the successor state. -/
def CommandQueueMachine.dequeue (m : CommandQueueMachine) :
    Option (List Nat) × CommandQueueMachine :=
  match m.pending_commands with
  | [] => (none, m)
  | c :: rest => (some c, ⟨rest⟩)

/-- Input of the command queue machine (state_machine/command.rs). -/
inductive CommandInput
  | Enqueue (cmd : List Nat)
deriving DecidableEq

/-- Output of the command queue machine (state_machine/command.rs). -/
inductive CommandOutput
  | Command (cmd : List Nat)
deriving DecidableEq

/-- StateMachine::process_input for CommandQueueMachine. -/
def CommandQueueMachine.process_input (m : CommandQueueMachine) :
    CommandInput → CommandQueueMachine
  | .Enqueue cmd => m.enqueue cmd

/-- StateMachine::poll_output for CommandQueueMachine. -/
def CommandQueueMachine.poll_output (m : CommandQueueMachine) :
    Option CommandOutput × CommandQueueMachine :=
  ((m.dequeue).1.map CommandOutput.Command, (m.dequeue).2)

/-- A drone position sample (state_machine/telemetry.rs; state_machine/echo.rs
declares an identical struct, shared here). The f64 fields are only ever stored
and cloned, never computed with, so they are embedded as rationals. -/
structure Position where
  drone_id : String
  latitude : Rat
  longitude : Rat
  altitude_m : Rat
  heading_deg : Rat
  speed_mps : Rat
  timestamp : Nat
deriving DecidableEq

/-- The latest-value telemetry machine (state_machine/telemetry.rs). -/
structure TelemetryMachine where
  latest_position : Option Position
  pending : Bool
deriving DecidableEq

/-- Construct a telemetry machine with no position (TelemetryMachine::new). -/
def TelemetryMachine.new : TelemetryMachine := ⟨none, false⟩

/-- Current position regardless of the pending flag
(TelemetryMachine::current_position). -/
def TelemetryMachine.current_position (m : TelemetryMachine) : Option Position :=
  m.latest_position

/-- Whether an unpolled update is pending (TelemetryMachine::has_pending). -/
def TelemetryMachine.has_pending (m : TelemetryMachine) : Bool :=
  m.pending

/-- Store a position and raise the pending flag
(TelemetryMachine::update_position). -/
def TelemetryMachine.update_position (m : TelemetryMachine) (pos : Position) :
    TelemetryMachine :=
  ⟨some pos, true⟩

/-- Clear the pending flag and yield the stored position, or nothing when no
update is pending (TelemetryMachine::poll_position). -/
def TelemetryMachine.poll_position (m : TelemetryMachine) :
    Option Position × TelemetryMachine :=
  if m.pending then (m.latest_position, ⟨m.latest_position, false⟩) else (none, m)

/-- Input of the telemetry machine (state_machine/telemetry.rs). -/
inductive TelemetryInput
  | Position (pos : Position)
deriving DecidableEq

/-- Output of the telemetry machine (state_machine/telemetry.rs). -/
inductive TelemetryOutput
  | PositionUpdate (pos : Position)
deriving DecidableEq

/-- StateMachine::process_input for TelemetryMachine. -/
def TelemetryMachine.process_input (m : TelemetryMachine) :
    TelemetryInput → TelemetryMachine
  | .Position pos => m.update_position pos

/-- StateMachine::poll_output for TelemetryMachine. -/
def TelemetryMachine.poll_output (m : TelemetryMachine) :
    Option TelemetryOutput × TelemetryMachine :=
  ((m.poll_position).1.map TelemetryOutput.PositionUpdate, (m.poll_position).2)

/-- The echo machine (state_machine/echo.rs): structurally the same latest-value
machine as TelemetryMachine. -/
structure EchoMachine where
  latest_position : Option Position
  pending : Bool
deriving DecidableEq

/-- Construct an echo machine with no position (EchoMachine::new). -/
def EchoMachine.new : EchoMachine := ⟨none, false⟩

/-- Store a position and raise the pending flag (EchoMachine::update_position). -/
def EchoMachine.update_position (m : EchoMachine) (pos : Position) : EchoMachine :=
  ⟨some pos, true⟩

/-- Clear the pending flag and yield the stored position
(EchoMachine::poll_position). -/
def EchoMachine.poll_position (m : EchoMachine) : Option Position × EchoMachine :=
  if m.pending then (m.latest_position, ⟨m.latest_position, false⟩) else (none, m)

/-- Input of the echo machine (state_machine/echo.rs). -/
inductive EchoInput
  | Position (pos : Position)
deriving DecidableEq

/-- Output of the echo machine (state_machine/echo.rs). -/
inductive EchoOutput
  | Position (pos : Position)
deriving DecidableEq

/-- StateMachine::process_input for EchoMachine. -/
def EchoMachine.process_input (m : EchoMachine) : EchoInput → EchoMachine
  | .Position pos => m.update_position pos

/-- StateMachine::poll_output for EchoMachine. -/
def EchoMachine.poll_output (m : EchoMachine) : Option EchoOutput × EchoMachine :=
  ((m.poll_position).1.map EchoOutput.Position, (m.poll_position).2)

/-- One call against a state machine: either feeding an input through
StateMachine::process_input or draining one output via
StateMachine::poll_output. -/
inductive SMCall (I : Type)
  | input (i : I)
  | poll
deriving DecidableEq

/-- Run a state machine over a sequence of calls, recording the result of every
poll in order together with the final state. The machine is given by its two
trait methods, so the same runner instantiates at each concrete machine. -/
def runMachine {M I O : Type} (proc : M → I → M) (poll : M → Option O × M)
    (m : M) : List (SMCall I) → List (Option O) × M
  | [] => ([], m)
  | .input i :: calls => runMachine proc poll (proc m i) calls
  | .poll :: calls =>
    ((poll m).1 :: (runMachine proc poll (poll m).2 calls).1,
      (runMachine proc poll (poll m).2 calls).2)

/-- One event observed on the transport's announced stream
(rpcmoq_lite/client/rpc_client.rs): an announcement carrying a path and either
a live broadcast (modelled as a Nat handle) or a departure, or the end of the
stream itself. -/
inductive StreamEvent
  | announce (path : String) (broadcast : Option Nat)
  | streamEnd
deriving DecidableEq

/-- The body of the discovery loop in RpcClient::wait_for_server, run over the
finite list of events the stream delivers: some result when the loop returns,
none when it is still waiting after consuming every event. -/
def processAnnounced (server_path : String) : List StreamEvent → Option (Except RpcError Nat)
  | [] => none
  | .announce p (some b) :: rest =>
    if p = server_path then some (.ok b)
    else processAnnounced server_path rest
  | .announce p none :: rest =>
    if p = server_path then some (.error (.ServerNotFound p))
    else processAnnounced server_path rest
  | .streamEnd :: _ => some (.error .ConnectionClosed)

/-- RpcClient::wait_for_server with its tokio timeout: events is the list of
stream events delivered before the configured deadline; if the loop has not
returned on those events, the timeout fires first and yields the Timeout error. -/
def wait_for_server (server_path : String) (events : List StreamEvent) :
    Except RpcError Nat :=
  match processAnnounced server_path events with
  | some r => r
  | none => .error .Timeout

theorem stripPre_append (p r : List Char) : stripPre p (p ++ r) = some r := by
  induction p with
  | nil => rfl
  | cons c cs ih => simp [stripPre, ih]

theorem breakSlash_append (cid cn : List Char) (h : ('/') ∉ cid) :
    breakSlash (cid ++ '/' :: cn) = some (cid, cn) := by
  induction cid with
  | nil => simp [breakSlash]
  | cons c cs ih =>
    have hc : c ≠ '/' := fun hc => h (hc ▸ List.mem_cons_self c cs)
    have hcs : ('/') ∉ cs := fun hm => h (List.mem_cons_of_mem c hm)
    rw [List.cons_append]
    unfold breakSlash
    rw [if_neg hc, ih hcs]

/-- Claim C4 counterexample: with no prefix overridden (both prefixes absent),
the constructed paths drop the prefix segment entirely instead of defaulting to
the client and server prefixes. -/
theorem default_prefixes_counterexample :
    RpcClientConfig.client_path ⟨"drone-123", none, none, "primary", 30⟩
        "drone.EchoService/Echo" = "drone-123/drone.EchoService/Echo" ∧
    RpcClientConfig.client_path ⟨"drone-123", none, none, "primary", 30⟩
        "drone.EchoService/Echo" ≠ "client/drone-123/drone.EchoService/Echo" ∧
    RpcClientConfig.server_path ⟨"drone-123", none, none, "primary", 30⟩
        "drone.EchoService/Echo" ≠ "server/drone-123/drone.EchoService/Echo" ∧
    RpcRouterConfig.response_path ⟨some "drone", none, "primary"⟩ "drone-123"
        "drone.EchoService/Echo" ≠ "server/drone-123/drone.EchoService/Echo" := by
  exact ⟨rfl, by decide, by decide, by decide⟩

/-- Claim C4 as amended: an absent prefix produces a path with no leading
prefix segment at all, and the client, server and response prefixes appear in
the constructed paths only when explicitly configured, in which case the paths
are exactly prefix, client id and call name joined by the separator. -/
theorem paths_follow_configured_prefixes (cid cn tn cp : String) (t : Nat) :
    RpcClientConfig.client_path ⟨cid, none, none, tn, t⟩ cn = cid ++ "/" ++ cn ∧
    RpcClientConfig.server_path ⟨cid, none, none, tn, t⟩ cn = cid ++ "/" ++ cn ∧
    RpcRouterConfig.response_path ⟨some cp, none, tn⟩ cid cn = cid ++ "/" ++ cn ∧
    RpcClientConfig.client_path ⟨cid, some "client", some "server", tn, t⟩ cn =
      "client/" ++ cid ++ "/" ++ cn ∧
    RpcClientConfig.server_path ⟨cid, some "client", some "server", tn, t⟩ cn =
      "server/" ++ cid ++ "/" ++ cn ∧
    RpcRouterConfig.response_path ⟨some cp, some "server", tn⟩ cid cn =
      "server/" ++ cid ++ "/" ++ cn := by
  have hc : ("client" : String) ++ "/" = "client/" := rfl
  have hs : ("server" : String) ++ "/" = "server/" := rfl
  exact ⟨rfl, rfl, rfl,
    by simp only [RpcClientConfig.client_path, hc],
    by simp only [RpcClientConfig.server_path, hs],
    by simp only [RpcRouterConfig.response_path, hs]⟩

/-- Claim C3: for every prefix, client id free of the path separator, and call
name (which may itself contain separators), parsing the constructed request
path returns exactly the original client id and call name. -/
theorem parse_inverts_construction (pfx cid cn tn : String) (spre : Option String)
    (t : Nat) (h : ('/') ∉ cid.data) :
    parse_request_path pfx
      (RpcClientConfig.client_path ⟨cid, some pfx, spre, tn, t⟩ cn) = .ok (cid, cn) := by
  have hsep : ("/" : String).data = ['/'] := rfl
  have hpath : (RpcClientConfig.client_path ⟨cid, some pfx, spre, tn, t⟩ cn).data
      = (pfx.data ++ ['/']) ++ (cid.data ++ '/' :: cn.data) := by
    simp [RpcClientConfig.client_path, String.data_append, hsep]
  unfold parse_request_path
  rw [hpath, stripPre_append]
  simp only [breakSlash_append _ _ h]

/-- Witness for claim C3 at a concrete prefix, client id and call name. -/
theorem parse_inverts_construction_witness :
    ('/') ∉ ("drone-123" : String).data ∧
    parse_request_path "drone"
      (RpcClientConfig.client_path
        ⟨"drone-123", some "drone", some "server", "primary", 30⟩
        "drone.EchoService/Echo")
      = .ok ("drone-123", "drone.EchoService/Echo") :=
  ⟨by decide,
    parse_inverts_construction "drone" "drone-123" "drone.EchoService/Echo" "primary"
      (some "server") 30 (by decide)⟩

/-- Claim C1: a successful admission reserves the key, so a second admission
for the same key fails with SessionAlreadyActive; releasing the session lets a
later admission succeed again; and the registry keeps at most one active
session per key throughout. -/
theorem session_registry_exclusive (m m' : DroneSessionMap) (k : String)
    (n₁ n₂ n₃ : Nat) (sid : Nat) (hwf : m.atMostOnePerKey)
    (h : m.create_session k n₁ = .ok (sid, m')) :
    m'.create_session k n₂ = .error ⟨k⟩ ∧
    m'.atMostOnePerKey ∧
    ∃ s m'', m'.remove_session k = .ok (s, m'') ∧ m''.atMostOnePerKey ∧
      ∃ mf, m''.create_session k n₃ = .ok (n₃, mf) := by
  unfold DroneSessionMap.create_session at h
  by_cases hact : m.has_active_session k
  · rw [if_pos hact] at h
    cases h
  · rw [if_neg hact] at h
    rw [Except.ok.injEq, Prod.mk.injEq] at h
    obtain ⟨-, rfl⟩ := h
    have hnotin : ∀ e ∈ m.sessions, (e.1 == k) = false := by
      intro e he
      by_contra hne
      refine hact ?_
      unfold DroneSessionMap.has_active_session
      rw [List.any_eq_true]
      exact ⟨e, he, by simpa using hne⟩
    refine ⟨?_, ?_, ?_⟩
    · simp [DroneSessionMap.create_session, DroneSessionMap.has_active_session]
    · unfold DroneSessionMap.atMostOnePerKey at hwf ⊢
      simp only [List.map_cons, List.nodup_cons]
      refine ⟨?_, hwf⟩
      simp only [List.mem_map]
      rintro ⟨e, he, hk⟩
      have hno := hnotin e he
      rw [hk] at hno
      simp at hno
    · have hfil : ((⟨(k, ⟨n₁, k⟩) :: m.sessions⟩ : DroneSessionMap)).sessions.filter
          (fun e => e.1 != k) = m.sessions.filter (fun e => e.1 != k) := by
        simp [List.filter_cons]
      refine ⟨⟨n₁, k⟩, ⟨m.sessions.filter (fun e => e.1 != k)⟩, ?_, ?_, ?_⟩
      · unfold DroneSessionMap.remove_session
        simp only [List.find?_cons, beq_self_eq_true, hfil]
      · unfold DroneSessionMap.atMostOnePerKey at hwf ⊢
        exact List.Nodup.sublist (List.Sublist.map _ (List.filter_sublist _)) hwf
      · have hempty : (⟨m.sessions.filter (fun e => e.1 != k)⟩ :
            DroneSessionMap).has_active_session k = false := by
          unfold DroneSessionMap.has_active_session
          rw [List.any_eq_false]
          intro e he
          have := (List.mem_filter.mp he).2
          simpa using this
        exact ⟨⟨(k, ⟨n₃, k⟩) :: m.sessions.filter (fun e => e.1 != k)⟩,
          by simp [DroneSessionMap.create_session, hempty]⟩

/-- Witness for claim C1 on a fresh registry and the key drone-1. -/
theorem session_registry_exclusive_witness :
    DroneSessionMap.new.atMostOnePerKey ∧
    DroneSessionMap.new.create_session "drone-1" 7
      = .ok (7, ⟨[("drone-1", ⟨7, "drone-1"⟩)]⟩) ∧
    ((⟨[("drone-1", ⟨7, "drone-1"⟩)]⟩ : DroneSessionMap).create_session "drone-1" 8
        = .error ⟨"drone-1"⟩ ∧
      (⟨[("drone-1", ⟨7, "drone-1"⟩)]⟩ : DroneSessionMap).atMostOnePerKey ∧
      ∃ s m'', (⟨[("drone-1", ⟨7, "drone-1"⟩)]⟩ : DroneSessionMap).remove_session "drone-1"
          = .ok (s, m'') ∧ m''.atMostOnePerKey ∧
        ∃ mf, m''.create_session "drone-1" 9 = .ok (9, mf)) :=
  ⟨by decide, rfl,
    session_registry_exclusive DroneSessionMap.new ⟨[("drone-1", ⟨7, "drone-1"⟩)]⟩
      "drone-1" 7 8 9 7 (by decide) rfl⟩

theorem filter_key_beq_false {T : Type} (l : List (String × Nat × T)) (id : String) :
    ∀ x ∈ l.filter (fun e => e.1 != id), (x.1 == id) = false := by
  intro x hx
  have h2 := (List.mem_filter.mp hx).2
  simp only [bne_iff_ne, ne_eq] at h2
  simpa using h2

/-- Claim C2: after a successful removal, every reference obtained before the
removal fails view with the invalid-view error for all view functions (the
function is never run), re-insertion under the same id succeeds whatever the
removed record held, the stale reference still fails against the fresh record,
and a reference taken after re-insertion observes exactly the fresh record. -/
theorem entity_registry_removal_invalidates {T : Type} (m m' : UnitMap T)
    (id : String) (r : UnitRef) (t' : T) (hwf : m.WF)
    (hr : m.get_unit id = .ok r) (hrem : m.remove_unit id = .ok m') :
    (∀ (R : Type) (f : T → R), UnitRef.view m' r f = .error ⟨id⟩) ∧
    m'.WF ∧
    ∃ m'', m'.insert_unit id t' = .ok m'' ∧ m''.WF ∧
      (∀ (R : Type) (f : T → R), UnitRef.view m'' r f = .error ⟨id⟩) ∧
      ∃ r', m''.get_unit id = .ok r' ∧
        ∀ (R : Type) (f : T → R), UnitRef.view m'' r' f = .ok (f t') := by
  unfold UnitMap.get_unit at hr
  cases hfind : m.entity_map.find? (fun e => e.1 == id) with
  | none => rw [hfind] at hr; cases hr
  | some e =>
    rw [hfind, Except.ok.injEq] at hr
    subst hr
    have hmem := List.mem_of_find?_eq_some hfind
    have hgen : e.2.1 < m.next_gen := hwf.2 e hmem
    unfold UnitMap.remove_unit at hrem
    by_cases hany : m.entity_map.any (fun e => e.1 == id)
    · rw [if_pos hany, Except.ok.injEq] at hrem
      subst hrem
      have hfilnone : (m.entity_map.filter (fun e => e.1 != id)).find?
          (fun e => e.1 == id) = none :=
        List.find?_eq_none.mpr (by
          intro x hx
          simp [filter_key_beq_false m.entity_map id x hx])
      have hnotin : id ∉ (m.entity_map.filter (fun e => e.1 != id)).map Prod.fst := by
        simp only [List.mem_map]
        rintro ⟨x, hx, hxid⟩
        have := filter_key_beq_false m.entity_map id x hx
        rw [hxid] at this
        simp at this
      refine ⟨?_, ?_, ?_⟩
      · intro R f
        simp only [UnitRef.view, hfilnone]
      · refine ⟨?_, ?_⟩
        · exact hwf.1.sublist (List.Sublist.map _ (List.filter_sublist _))
        · intro x hx
          exact hwf.2 x (List.mem_of_mem_filter hx)
      · have hinsert : (⟨m.entity_map.filter (fun e => e.1 != id), m.next_gen⟩ :
            UnitMap T).insert_unit id t'
            = .ok ⟨(id, m.next_gen, t') :: m.entity_map.filter (fun e => e.1 != id),
                m.next_gen + 1⟩ := by
          unfold UnitMap.insert_unit
          rw [if_neg ?_]
          rw [Bool.not_eq_true, List.any_eq_false]
          intro x hx
          simp [filter_key_beq_false m.entity_map id x hx]
        refine ⟨_, hinsert, ⟨?_, ?_⟩, ?_, ⟨id, m.next_gen⟩, ?_, ?_⟩
        · simp only [List.map_cons, List.nodup_cons]
          exact ⟨hnotin, hwf.1.sublist (List.Sublist.map _ (List.filter_sublist _))⟩
        · intro x hx
          rcases List.mem_cons.mp hx with hx | hx
          · rw [hx]
            exact Nat.lt_succ_self _
          · exact Nat.lt_succ_of_lt (hwf.2 x (List.mem_of_mem_filter hx))
        · intro R f
          simp only [UnitRef.view, List.find?_cons, beq_self_eq_true]
          have hne : m.next_gen ≠ e.2.1 := Nat.ne_of_gt hgen
          simp [hne]
        · simp only [UnitMap.get_unit, List.find?_cons, beq_self_eq_true]
        · intro R f
          simp only [UnitRef.view, List.find?_cons, beq_self_eq_true]
          simp
    · rw [if_neg hany] at hrem
      cases hrem

/-- Witness for claim C2 on a one-entry registry holding the unit u1. -/
theorem entity_registry_removal_invalidates_witness :
    (⟨[("u1", 0, 41)], 1⟩ : UnitMap Nat).WF ∧
    (⟨[("u1", 0, 41)], 1⟩ : UnitMap Nat).get_unit "u1" = .ok ⟨"u1", 0⟩ ∧
    (⟨[("u1", 0, 41)], 1⟩ : UnitMap Nat).remove_unit "u1" = .ok ⟨[], 1⟩ ∧
    ((∀ (R : Type) (f : Nat → R), UnitRef.view (⟨[], 1⟩ : UnitMap Nat) ⟨"u1", 0⟩ f
        = .error ⟨"u1"⟩) ∧
      (⟨[], 1⟩ : UnitMap Nat).WF ∧
      ∃ m'', (⟨[], 1⟩ : UnitMap Nat).insert_unit "u1" 42 = .ok m'' ∧ m''.WF ∧
        (∀ (R : Type) (f : Nat → R), UnitRef.view m'' ⟨"u1", 0⟩ f = .error ⟨"u1"⟩) ∧
        ∃ r', m''.get_unit "u1" = .ok r' ∧
          ∀ (R : Type) (f : Nat → R), UnitRef.view m'' r' f = .ok (f 42)) :=
  ⟨by decide, rfl, rfl,
    entity_registry_removal_invalidates ⟨[("u1", 0, 41)], 1⟩ ⟨[], 1⟩ "u1" ⟨"u1", 0⟩ 42
      (by decide) rfl rfl⟩

/-- Claim C9: inserting under an id that is already present fails with
UnitAlreadyPresent and replaces nothing: the new context is discarded, and a
reference obtained afterwards still views the originally stored record. -/
theorem entity_registry_insert_conflict {T : Type} (m : UnitMap T) (id : String)
    (g : Nat) (t₀ tnew : T)
    (hfind : m.entity_map.find? (fun e => e.1 == id) = some (id, g, t₀)) :
    m.insert_unit id tnew = .error ⟨id⟩ ∧
    ∃ r, m.get_unit id = .ok r ∧
      ∀ (R : Type) (f : T → R), UnitRef.view m r f = .ok (f t₀) := by
  have hany : m.entity_map.any (fun e => e.1 == id) = true := by
    rw [List.any_eq_true]
    exact ⟨(id, g, t₀), List.mem_of_find?_eq_some hfind, by simp⟩
  refine ⟨by simp [UnitMap.insert_unit, hany], ⟨id, g⟩, ?_, ?_⟩
  · simp only [UnitMap.get_unit, hfind]
  · intro R f
    simp only [UnitRef.view, hfind]
    simp

/-- Witness for claim C9 on a one-entry registry holding the unit u1. -/
theorem entity_registry_insert_conflict_witness :
    (⟨[("u1", 0, 41)], 1⟩ : UnitMap Nat).entity_map.find? (fun e => e.1 == "u1")
        = some ("u1", 0, 41) ∧
    ((⟨[("u1", 0, 41)], 1⟩ : UnitMap Nat).insert_unit "u1" 99 = .error ⟨"u1"⟩ ∧
      ∃ r, (⟨[("u1", 0, 41)], 1⟩ : UnitMap Nat).get_unit "u1" = .ok r ∧
        ∀ (R : Type) (f : Nat → R),
          UnitRef.view (⟨[("u1", 0, 41)], 1⟩ : UnitMap Nat) r f = .ok (f 41)) :=
  ⟨by decide, entity_registry_insert_conflict ⟨[("u1", 0, 41)], 1⟩ "u1" 0 41 99 rfl⟩

theorem runMachine_append {M I O : Type} (proc : M → I → M) (poll : M → Option O × M)
    (m : M) (l₁ l₂ : List (SMCall I)) :
    runMachine proc poll m (l₁ ++ l₂)
      = ((runMachine proc poll m l₁).1
          ++ (runMachine proc poll (runMachine proc poll m l₁).2 l₂).1,
        (runMachine proc poll (runMachine proc poll m l₁).2 l₂).2) := by
  induction l₁ generalizing m with
  | nil => simp [runMachine]
  | cons c l ih => cases c <;> simp [runMachine, ih]

theorem runMachine_enqueues (cmds : List (List Nat)) (m : CommandQueueMachine) :
    runMachine CommandQueueMachine.process_input CommandQueueMachine.poll_output m
      (cmds.map (fun c => SMCall.input (CommandInput.Enqueue c)))
      = ([], ⟨m.pending_commands ++ cmds⟩) := by
  induction cmds generalizing m with
  | nil => simp [runMachine]
  | cons c cs ih =>
    simp [runMachine, CommandQueueMachine.process_input, CommandQueueMachine.enqueue, ih]

theorem runMachine_drains (q : List (List Nat)) :
    runMachine CommandQueueMachine.process_input CommandQueueMachine.poll_output ⟨q⟩
      (List.replicate (q.length + 1) SMCall.poll)
      = (q.map (fun c => some (CommandOutput.Command c)) ++ [none], ⟨[]⟩) := by
  induction q with
  | nil =>
    simp [runMachine, CommandQueueMachine.poll_output, CommandQueueMachine.dequeue]
  | cons c cs ih =>
    have hstep : runMachine CommandQueueMachine.process_input
        CommandQueueMachine.poll_output ⟨c :: cs⟩
        (List.replicate ((c :: cs).length + 1) SMCall.poll)
        = (some (CommandOutput.Command c)
            :: (runMachine CommandQueueMachine.process_input
              CommandQueueMachine.poll_output ⟨cs⟩
              (List.replicate (cs.length + 1) SMCall.poll)).1,
          (runMachine CommandQueueMachine.process_input
            CommandQueueMachine.poll_output ⟨cs⟩
            (List.replicate (cs.length + 1) SMCall.poll)).2) := by
      rw [List.length_cons, List.replicate_succ]
      rfl
    rw [hstep, ih]
    simp

/-- Claim C5: from an empty command queue machine, enqueueing a whole sequence
of byte buffers and then polling once more often than the sequence is long
returns exactly those buffers, one per poll, in enqueue order, and the final
extra poll on the now-empty queue returns nothing. -/
theorem command_queue_fifo (cmds : List (List Nat)) :
    runMachine CommandQueueMachine.process_input CommandQueueMachine.poll_output
      CommandQueueMachine.new
      (cmds.map (fun c => SMCall.input (CommandInput.Enqueue c))
        ++ List.replicate (cmds.length + 1) SMCall.poll)
      = (cmds.map (fun c => some (CommandOutput.Command c)) ++ [none], ⟨[]⟩) := by
  rw [runMachine_append, runMachine_enqueues]
  have hnew : (CommandQueueMachine.new.pending_commands ++ cmds) = cmds := rfl
  rw [hnew, runMachine_drains]
  simp

/-- Claim C6: setting one position and then a second before any poll makes
exactly one poll return the second position; polling again returns nothing and
leaves the machine unchanged, so nothing is returned until another set occurs;
the latest value stays queryable after being polled; and a later set makes the
next poll return that newer position. -/
theorem telemetry_latest_value_once (p₁ p₂ : Position) :
    (TelemetryMachine.new.process_input (.Position p₁)).process_input (.Position p₂)
      = ⟨some p₂, true⟩ ∧
    (⟨some p₂, true⟩ : TelemetryMachine).poll_output
      = (some (.PositionUpdate p₂), ⟨some p₂, false⟩) ∧
    (⟨some p₂, false⟩ : TelemetryMachine).poll_output = (none, ⟨some p₂, false⟩) ∧
    (⟨some p₂, false⟩ : TelemetryMachine).current_position = some p₂ ∧
    ∀ p₃ : Position, ((⟨some p₂, false⟩ : TelemetryMachine).process_input
        (.Position p₃)).poll_output = (some (.PositionUpdate p₃), ⟨some p₃, false⟩) :=
  ⟨rfl, rfl, rfl, rfl, fun _ => rfl⟩

/-- Claim C10: every position input raises the pending flag and determines the
next poll result unconditionally, whatever the machine held before - including
a value equal to the stored, already polled one - so change tracking is by the
flag alone and never by comparing values. -/
theorem telemetry_pending_unconditional (m : TelemetryMachine) (p : Position) :
    (m.process_input (.Position p)).pending = true ∧
    (m.process_input (.Position p)).has_pending = true ∧
    (m.process_input (.Position p)).poll_output
      = (some (.PositionUpdate p), ⟨some p, false⟩) :=
  ⟨rfl, rfl, rfl⟩

/-- Claim C7: during response discovery, an announcement for another path is
skipped; the first matching announcement carrying a live broadcast succeeds
immediately; a matching departure-only announcement fails with ServerNotFound;
the stream ending fails with ConnectionClosed; and when the events delivered
before the deadline leave the loop still waiting, the timeout fires and the
result is the Timeout error. -/
theorem wait_for_server_cases (sp p : String) (c : Option Nat) (b : Nat)
    (rest evs : List StreamEvent) (hne : p ≠ sp)
    (hpend : processAnnounced sp evs = none) :
    wait_for_server sp (.announce p c :: rest) = wait_for_server sp rest ∧
    wait_for_server sp (.announce sp (some b) :: rest) = .ok b ∧
    wait_for_server sp (.announce sp none :: rest) = .error (.ServerNotFound sp) ∧
    wait_for_server sp (.streamEnd :: rest) = .error .ConnectionClosed ∧
    wait_for_server sp evs = .error .Timeout := by
  refine ⟨?_, ?_, ?_, ?_, ?_⟩
  · cases c <;> simp [wait_for_server, processAnnounced, hne]
  · simp [wait_for_server, processAnnounced]
  · simp [wait_for_server, processAnnounced]
  · simp [wait_for_server, processAnnounced]
  · simp [wait_for_server, hpend]

/-- Witness for claim C7 at the concrete response path server/d1/Echo. -/
theorem wait_for_server_cases_witness :
    ("other" : String) ≠ "server/d1/Echo" ∧
    processAnnounced "server/d1/Echo" [] = none ∧
    (wait_for_server "server/d1/Echo" [.announce "other" none]
        = wait_for_server "server/d1/Echo" [] ∧
      wait_for_server "server/d1/Echo" [.announce "server/d1/Echo" (some 7)] = .ok 7 ∧
      wait_for_server "server/d1/Echo" [.announce "server/d1/Echo" none]
        = .error (.ServerNotFound "server/d1/Echo") ∧
      wait_for_server "server/d1/Echo" [.streamEnd] = .error .ConnectionClosed ∧
      wait_for_server "server/d1/Echo" [] = .error .Timeout) :=
  ⟨by decide, rfl,
    wait_for_server_cases "server/d1/Echo" "other" none 7 [] [] (by decide) rfl⟩

/-- Claim C8: each of the three state machines is deterministic: two runs from
equal initial states over equal call sequences produce equal poll-output
sequences and equal final states; the transition functions take no time,
randomness or scheduling input at all. -/
theorem state_machines_deterministic
    (c₁ c₂ : CommandQueueMachine) (ci₁ ci₂ : List (SMCall CommandInput))
    (t₁ t₂ : TelemetryMachine) (ti₁ ti₂ : List (SMCall TelemetryInput))
    (e₁ e₂ : EchoMachine) (ei₁ ei₂ : List (SMCall EchoInput))
    (hc : c₁ = c₂) (hci : ci₁ = ci₂) (ht : t₁ = t₂) (hti : ti₁ = ti₂)
    (he : e₁ = e₂) (hei : ei₁ = ei₂) :
    runMachine CommandQueueMachine.process_input CommandQueueMachine.poll_output c₁ ci₁
      = runMachine CommandQueueMachine.process_input CommandQueueMachine.poll_output c₂ ci₂ ∧
    runMachine TelemetryMachine.process_input TelemetryMachine.poll_output t₁ ti₁
      = runMachine TelemetryMachine.process_input TelemetryMachine.poll_output t₂ ti₂ ∧
    runMachine EchoMachine.process_input EchoMachine.poll_output e₁ ei₁
      = runMachine EchoMachine.process_input EchoMachine.poll_output e₂ ei₂ := by
  subst hc hci ht hti he hei
  exact ⟨rfl, rfl, rfl⟩

/-- Witness for claim C8 on concrete one-input one-poll runs. -/
theorem state_machines_deterministic_witness :
    runMachine CommandQueueMachine.process_input CommandQueueMachine.poll_output
        CommandQueueMachine.new [.input (.Enqueue [1, 2]), .poll]
      = runMachine CommandQueueMachine.process_input CommandQueueMachine.poll_output
        CommandQueueMachine.new [.input (.Enqueue [1, 2]), .poll] ∧
    runMachine TelemetryMachine.process_input TelemetryMachine.poll_output
        TelemetryMachine.new [.input (.Position ⟨"d1", 37, 0, 0, 0, 0, 0⟩), .poll]
      = runMachine TelemetryMachine.process_input TelemetryMachine.poll_output
        TelemetryMachine.new [.input (.Position ⟨"d1", 37, 0, 0, 0, 0, 0⟩), .poll] ∧
    runMachine EchoMachine.process_input EchoMachine.poll_output
        EchoMachine.new [.input (.Position ⟨"d1", 38, 0, 0, 0, 0, 0⟩), .poll]
      = runMachine EchoMachine.process_input EchoMachine.poll_output
        EchoMachine.new [.input (.Position ⟨"d1", 38, 0, 0, 0, 0, 0⟩), .poll] :=
  state_machines_deterministic
    CommandQueueMachine.new CommandQueueMachine.new
    [.input (.Enqueue [1, 2]), .poll] [.input (.Enqueue [1, 2]), .poll]
    TelemetryMachine.new TelemetryMachine.new
    [.input (.Position ⟨"d1", 37, 0, 0, 0, 0, 0⟩), .poll]
    [.input (.Position ⟨"d1", 37, 0, 0, 0, 0, 0⟩), .poll]
    EchoMachine.new EchoMachine.new
    [.input (.Position ⟨"d1", 38, 0, 0, 0, 0, 0⟩), .poll]
    [.input (.Position ⟨"d1", 38, 0, 0, 0, 0, 0⟩), .poll]
    rfl rfl rfl rfl rfl rfl
